import Mathlib

/-!
Verification of the bytefields layout engine against its specification.

The repository holds two variants of the same design: `bytefields/fields.py`
(the newer iteration) and `nativefields/fields.py` (the older one). The
definitions below are a shallow embedding of the field classes of those two
files. Byte buffers are `List Nat` (each entry one byte), Python exceptions
are an explicit `Except Err` result, and the mutable attributes of a field
descriptor (its `size`, `shape`, cached `inner`, bound `child`) are threaded
explicitly: an operation that mutates the descriptor returns the updated
descriptor next to its result.

The container class `ByteStruct`/`NativeStruct` (`base.py`) and the proxy
module (`array_proxy.py`) are not part of the sources under review; where an
operation calls into them (`calc_offset`, `_resize_data`,
`_resize_with_data`, the proxy constructor) the definition is modelled from
the specification and says so in its doc comment.
-/

/-- The error outcomes of the embedded operations, mirroring the
exception classes the Python code raises: out-of-bounds `IndexError`,
`struct.error` on an unrepresentable packed value, `UnicodeDecodeError`,
the length/shape `AssertionError`s, the numpy broadcast `ValueError`,
the unbound `VariableField` exception and the invalid-schema
`NotImplementedError` of `ArrayField.__init__`. -/
inductive Err where
  | outOfBounds
  | packError
  | decodeError
  | mismatch
  | broadcastMismatch
  | unbound
  | invalidSchema
  deriving DecidableEq, Repr

/-- A record container: the byte buffer it owns or aliases and the absolute
start of this record inside that buffer (`master_offset`, 0 for a
top-level record). -/
structure ByteStruct where
  data : List Nat
  master_offset : Nat
  deriving DecidableEq, Repr

/-- Modelled from the spec: `base.ByteStruct.calc_offset` is not under the
sources reviewed here. Spec 4.1, absolute offset rule: the resolved
absolute offset of a field whose `offset` attribute is the integer `off`
is `master_offset + off`. All claims below place fields at integer
offsets, which is also how `ArrayField` positions its element field. -/
def calcOffset (s : ByteStruct) (off : Nat) : Nat :=
  s.master_offset + off

/-- Python `data[o : o + len(v)] = v` for a replacement of the same length:
write the bytes `v` into `d` starting at offset `o`. -/
def writeAt (d : List Nat) (o : Nat) (v : List Nat) : List Nat :=
  d.take o ++ v ++ d.drop (o + v.length)

/-- Python bytearray slice assignment `data[o : o + n] = v` where the
replacement may have a different length than the slice (a splice). -/
def spliceAssign (d : List Nat) (o n : Nat) (v : List Nat) : List Nat :=
  d.take o ++ v ++ d.drop (o + n)

/-- Modelled from the spec: `base._resize_data` / the buffer-splice half of
`base._resize_with_data` are not under the sources reviewed here. Spec 4.3:
splice the buffer at the byte position immediately after the field's
current end (`resolved offset + old_size`); on growth insert
`new - old` zero bytes there, on shrinkage remove the last `old - new`
bytes of the field's range. -/
def resizeData (s : ByteStruct) (off oldSize newSize : Nat) : ByteStruct :=
  let endPos := calcOffset s off + oldSize
  if oldSize ≤ newSize then
    { s with data :=
        s.data.take endPos ++ List.replicate (newSize - oldSize) 0 ++ s.data.drop endPos }
  else
    { s with data := s.data.take (calcOffset s off + newSize) ++ s.data.drop endPos }

/-! ## The integer codec (`struct.pack`/`struct.unpack` on integer formats) -/

/-- Byte order selected by the format prefix: `<` or `>`; the native order
`@`/no prefix is modelled as little-endian (the host order of the
platforms the library targets). -/
inductive ByteOrder where
  | little
  | big
  deriving DecidableEq, Repr

/-- The `w` little-endian base-256 digits of `n`. -/
def natToLE : Nat → Nat → List Nat
  | 0, _ => []
  | w + 1, n => n % 256 :: natToLE w (n / 256)

/-- Read a little-endian base-256 digit list back into a number. -/
def leToNat : List Nat → Nat
  | [] => 0
  | b :: bs => b + 256 * leToNat bs

/-- The byte string `struct.pack` produces for the nonnegative
representative `n` of an integer of width `w`. -/
def packIntBytes (w : Nat) (order : ByteOrder) (n : Nat) : List Nat :=
  match order with
  | .little => natToLE w n
  | .big => (natToLE w n).reverse

/-- The range check `struct.pack` applies to an integer format of width `w`:
signed values live in `[-2^(8w-1), 2^(8w-1))`, unsigned in `[0, 2^(8w))`. -/
def representable (w : Nat) (signed : Bool) (v : Int) : Prop :=
  if signed then -(2 ^ (8 * w - 1) : Int) ≤ v ∧ v < 2 ^ (8 * w - 1)
  else 0 ≤ v ∧ v < (2 ^ (8 * w) : Int)

instance (w : Nat) (signed : Bool) (v : Int) : Decidable (representable w signed v) := by
  unfold representable; infer_instance

/-- `struct.pack` on an integer format: range-check the value, then emit its
two's-complement bytes in the selected order. -/
def packInt (w : Nat) (signed : Bool) (order : ByteOrder) (v : Int) : Option (List Nat) :=
  if representable w signed v then
    some (packIntBytes w order ((v % (2 ^ (8 * w) : Int)).toNat))
  else
    none

/-- `struct.unpack` on an integer format: read the bytes in the selected
order and reinterpret the top-bit range as negative when signed. -/
def unpackInt (w : Nat) (signed : Bool) (order : ByteOrder) (bs : List Nat) : Int :=
  let n := leToNat (match order with | .little => bs | .big => bs.reverse)
  if signed ∧ 2 ^ (8 * w - 1) ≤ n then (n : Int) - 2 ^ (8 * w) else (n : Int)

/-! ## SimpleField and its subclasses -/

/-- The state of an `IntegerField` (`bytefields/fields.py` lines 222-252,
`nativefields/fields.py` lines 171-196): the declared offset, the width in
bytes selected by the `size` argument, signedness and byte order. `size`
(`width` here) is `struct.calcsize` of the chosen format, i.e. the width. -/
structure IntField where
  offset : Nat
  width : Nat
  signed : Bool
  order : ByteOrder
  deriving DecidableEq, Repr

/-- `IntegerField.__init__`: the width must be 1, 2, 4 or 8, otherwise a
`ValueError` is raised. -/
def intFieldInit (signed : Bool) (width : Nat) (order : ByteOrder) (off : Nat) :
    Except Err IntField :=
  if width = 4 ∨ width = 2 ∨ width = 1 ∨ width = 8 then
    .ok { offset := off, width := width, signed := signed, order := order }
  else
    .error .packError

/-- `SimpleField._getvalue` specialised to an integer format
(`bytefields/fields.py` lines 119-124): resolve the offset, check
`offset + size > len(data)`, slice the buffer and unpack. -/
def integerGet (s : ByteStruct) (f : IntField) : Except Err Int :=
  let o := calcOffset s f.offset
  if o + f.width > s.data.length then
    .error .outOfBounds
  else
    .ok (unpackInt f.width f.signed f.order ((s.data.drop o).take f.width))

/-- `SimpleField._setvalue` specialised to an integer format
(`bytefields/fields.py` lines 126-131): resolve the offset, check bounds,
then pack the value into the slice (`struct.pack` raising on an
unrepresentable value). -/
def integerSet (s : ByteStruct) (f : IntField) (v : Int) : Except Err ByteStruct :=
  let o := calcOffset s f.offset
  if o + f.width > s.data.length then
    .error .outOfBounds
  else
    match packInt f.width f.signed f.order v with
    | none => .error .packError
    | some bs => .ok { s with data := writeAt s.data o bs }

/-- `BooleanField._getvalue` (`bytefields/fields.py` lines 302-303): the
integer read, cast with `bool()` — nonzero becomes `true`. -/
def booleanGet (s : ByteStruct) (f : IntField) : Except Err Bool :=
  match integerGet s f with
  | .error e => .error e
  | .ok n => .ok (if n = 0 then false else true)

/-- `BooleanField._setvalue` (`bytefields/fields.py` lines 305-306): the
value cast with `int()` — `int(True) = 1`, `int(False) = 0` — and stored
through the integer field (which `BooleanField.__init__` makes unsigned). -/
def booleanSet (s : ByteStruct) (f : IntField) (b : Bool) : Except Err ByteStruct :=
  integerSet s f (if b then 1 else 0)


/-- The state of a `FloatField`/`DoubleField` (`bytefields/fields.py` lines
255-280, `nativefields/fields.py` lines 199-206): declared offset, the
width of the chosen format (4 for `f`, 8 for `d`) and the byte order. The
floating-point codec itself is an external collaborator per spec 1 — a
pure `(raw bytes, format) -> value` function and its inverse — so a value
representable in the field width is modelled by its IEEE 754 interchange
bit pattern (single precision for width 4, double for width 8), the
unique width-wide integer the codec puts on the wire. -/
structure FltField where
  offset : Nat
  width : Nat
  order : ByteOrder
  deriving DecidableEq, Repr

/-- `FloatField.__init__`: format `f`, width `struct.calcsize('f') = 4`. -/
def floatFieldInit (order : ByteOrder) (off : Nat) : FltField :=
  { offset := off, width := 4, order := order }

/-- `DoubleField.__init__`: format `d`, width `struct.calcsize('d') = 8`. -/
def doubleFieldInit (order : ByteOrder) (off : Nat) : FltField :=
  { offset := off, width := 8, order := order }

/-- `struct.pack` on a float format at the codec interface: the IEEE bit
pattern emitted as `w` bytes in the selected order. -/
def packFloatBits (w : Nat) (order : ByteOrder) (bits : Nat) : List Nat :=
  packIntBytes w order bits

/-- `struct.unpack` on a float format at the codec interface: read the `w`
bytes back into the IEEE bit pattern. -/
def unpackFloatBits (order : ByteOrder) (bs : List Nat) : Nat :=
  leToNat (match order with | .little => bs | .big => bs.reverse)

/-- `SimpleField._getvalue` on a float format: bounds check, slice,
unpack. -/
def floatGet (s : ByteStruct) (f : FltField) : Except Err Nat :=
  let o := calcOffset s f.offset
  if o + f.width > s.data.length then
    .error .outOfBounds
  else
    .ok (unpackFloatBits f.order ((s.data.drop o).take f.width))

/-- `SimpleField._setvalue` on a float format: bounds check, pack, write. -/
def floatSet (s : ByteStruct) (f : FltField) (bits : Nat) : Except Err ByteStruct :=
  let o := calcOffset s f.offset
  if o + f.width > s.data.length then
    .error .outOfBounds
  else
    .ok { s with data := writeAt s.data o (packFloatBits f.width f.order bits) }

/-! ## Codec lemmas -/

theorem natToLE_length (w n : Nat) : (natToLE w n).length = w := by
  induction w generalizing n with
  | zero => rfl
  | succ w ih => simp [natToLE, ih]

theorem leToNat_natToLE (w n : Nat) : leToNat (natToLE w n) = n % 256 ^ w := by
  induction w generalizing n with
  | zero => simp [natToLE, leToNat, Nat.mod_one]
  | succ w ih =>
    have h256 : 256 ^ (w + 1) = 256 * 256 ^ w := by ring
    rw [natToLE, leToNat, ih, h256, Nat.mod_mul]

theorem packIntBytes_length (w : Nat) (o : ByteOrder) (n : Nat) :
    (packIntBytes w o n).length = w := by
  cases o <;> simp [packIntBytes, natToLE_length]

theorem unpack_packIntBytes (w : Nat) (o : ByteOrder) (n : Nat) :
    leToNat (match o with
             | .little => packIntBytes w o n
             | .big => (packIntBytes w o n).reverse) = n % 256 ^ w := by
  cases o <;> simp [packIntBytes, leToNat_natToLE]

theorem two_pow_eq (w : Nat) : (2 : Nat) ^ (8 * w) = 256 ^ w := by
  rw [pow_mul]; norm_num

theorem cast_256_pow (w : Nat) : ((256 ^ w : Nat) : Int) = 2 ^ (8 * w) := by
  rw [← two_pow_eq]
  push_cast
  ring

theorem cast_2_pow (k : Nat) : (((2 : Nat) ^ k : Nat) : Int) = 2 ^ k := by
  push_cast
  ring

theorem half_le_full (w : Nat) : (2 : Int) ^ (8 * w - 1) ≤ 2 ^ (8 * w) := by
  apply pow_le_pow_right₀
  omega
  omega

/-- The integer codec round-trip at the interface the spec assigns to it:
for every representable value, unpacking the packed bytes restores the
value. -/
theorem packInt_unpackInt (w : Nat) (sg : Bool) (o : ByteOrder) (v : Int)
    (hw : 1 ≤ w) (hr : representable w sg v) :
    ∃ bs, packInt w sg o v = some bs ∧ bs.length = w ∧ unpackInt w sg o bs = v := by
  have hsplit : (2 : Int) ^ (8 * w) = 2 ^ (8 * w - 1) * 2 := by
    rw [← pow_succ]
    congr 1
    omega
  refine ⟨packIntBytes w o ((v % (2 ^ (8 * w) : Int)).toNat), ?_, packIntBytes_length w o _, ?_⟩
  · unfold packInt
    rw [if_pos hr]
  · unfold unpackInt
    rw [unpack_packIntBytes]
    have hc := cast_256_pow w
    have hc2 := cast_2_pow (8 * w - 1)
    cases sg with
    | false =>
      simp only [representable, Bool.false_eq_true, if_false] at hr
      obtain ⟨h0, hlt⟩ := hr
      have hmod : v % (2 ^ (8 * w) : Int) = v := Int.emod_eq_of_lt h0 hlt
      have hvn : ((v.toNat : Int)) = v := Int.toNat_of_nonneg h0
      rw [hmod]
      have hmod2 : v.toNat % 256 ^ w = v.toNat := Nat.mod_eq_of_lt (by omega)
      simp only [hmod2, Bool.false_eq_true, false_and, if_false]
      omega
    | true =>
      simp only [representable, if_true] at hr
      obtain ⟨hlo, hhi⟩ := hr
      have hhalf := half_le_full w
      by_cases hv : 0 ≤ v
      · have hmod : v % (2 ^ (8 * w) : Int) = v := Int.emod_eq_of_lt hv (by omega)
        rw [hmod]
        have hnat : (v.toNat : Int) = v := Int.toNat_of_nonneg hv
        rw [Nat.mod_eq_of_lt (by omega)]
        have hsmall : ¬ (2 ^ (8 * w - 1) ≤ v.toNat) := by omega
        simp only [hsmall, and_false, if_false]
        omega
      · push_neg at hv
        have hm1 : v % (2 ^ (8 * w) : Int) = v + 2 ^ (8 * w) := by
          have h1 : (v + 2 ^ (8 * w)) % (2 ^ (8 * w) : Int) = v % (2 ^ (8 * w) : Int) := by
            have h2 := Int.add_mul_emod_self_left (a := v) (b := (1 : Int))
              (c := (2 ^ (8 * w) : Int))
            simpa using h2
          have h0le : (0 : Int) ≤ v + 2 ^ (8 * w) := by omega
          have h2 : (v + 2 ^ (8 * w)) % (2 ^ (8 * w) : Int) = v + 2 ^ (8 * w) :=
            Int.emod_eq_of_lt h0le (by omega)
          omega
        rw [hm1]
        have h0le : (0 : Int) ≤ v + 2 ^ (8 * w) := by omega
        have hnat : (((v + 2 ^ (8 * w)).toNat : Int)) = v + 2 ^ (8 * w) :=
          Int.toNat_of_nonneg h0le
        rw [Nat.mod_eq_of_lt (by omega)]
        have hbig : 2 ^ (8 * w - 1) ≤ (v + 2 ^ (8 * w)).toNat := by omega
        simp only [hbig, and_true, if_pos]
        omega

/-! ## Buffer write lemmas -/

theorem writeAt_length (d : List Nat) (o : Nat) (v : List Nat)
    (h : o + v.length ≤ d.length) : (writeAt d o v).length = d.length := by
  simp only [writeAt, List.length_append, List.length_take, List.length_drop]
  omega

theorem writeAt_extract (d : List Nat) (o : Nat) (v : List Nat)
    (h : o + v.length ≤ d.length) : ((writeAt d o v).drop o).take v.length = v := by
  have hlen : (d.take o).length = o := by
    simp only [List.length_take]
    omega
  rw [writeAt, List.append_assoc, List.drop_left' hlen, List.take_left' rfl]

/-! ## The text codec (`str.encode` / `bytes.decode` with encoding utf-8)

A Python string value is modelled as its list of Unicode code points, so
`len(value)` is the list length while the encoded byte length may be
larger. -/

/-- UTF-8 encoding of one code point (1 to 4 bytes, expressed with base-64
digit arithmetic). -/
def utf8EncodeChar (c : Nat) : List Nat :=
  if c < 0x80 then [c]
  else if c < 0x800 then [0xC0 + c / 64, 0x80 + c % 64]
  else if c < 0x10000 then [0xE0 + c / 4096, 0x80 + c / 64 % 64, 0x80 + c % 64]
  else [0xF0 + c / 262144, 0x80 + c / 4096 % 64, 0x80 + c / 64 % 64, 0x80 + c % 64]

/-- `str.encode` under utf-8: the concatenated encodings of the code
points. -/
def utf8Encode (s : List Nat) : List Nat :=
  (s.map utf8EncodeChar).flatten

/-- A UTF-8 continuation byte. -/
def contByte (b : Nat) : Prop := 0x80 ≤ b ∧ b < 0xC0

instance (b : Nat) : Decidable (contByte b) := by
  unfold contByte; infer_instance

/-- `bytes.decode` under utf-8 (strict), written as a byte-at-a-time state
machine: `k` is the number of continuation bytes still expected, `acc` the
partially assembled code point, `lo` the smallest code point the current
sequence length may legally produce (rejecting overlong forms). Stray or
missing continuation bytes, leads past 0xF7, surrogates and values beyond
U+10FFFF are rejected, as Python's strict decoder does. -/
def utf8DecodeSM (k acc lo : Nat) : List Nat → Option (List Nat)
  | [] => if k = 0 then some [] else none
  | b :: rest =>
    if k = 0 then
      if b < 0x80 then (utf8DecodeSM 0 0 0 rest).map (b :: ·)
      else if b < 0xC0 then none
      else if b < 0xE0 then utf8DecodeSM 1 (b - 0xC0) 0x80 rest
      else if b < 0xF0 then utf8DecodeSM 2 (b - 0xE0) 0x800 rest
      else if b < 0xF8 then utf8DecodeSM 3 (b - 0xF0) 0x10000 rest
      else none
    else
      if contByte b then
        if k = 1 then
          if lo ≤ acc * 64 + (b - 0x80) ∧
              ¬ (0xD800 ≤ acc * 64 + (b - 0x80) ∧ acc * 64 + (b - 0x80) < 0xE000) ∧
              acc * 64 + (b - 0x80) ≤ 0x10FFFF then
            (utf8DecodeSM 0 0 0 rest).map ((acc * 64 + (b - 0x80)) :: ·)
          else none
        else utf8DecodeSM (k - 1) (acc * 64 + (b - 0x80)) lo rest
      else none

/-- `bytes.decode` under utf-8, from the initial state. -/
def utf8Decode (bs : List Nat) : Option (List Nat) :=
  utf8DecodeSM 0 0 0 bs

theorem utf8EncodeChar_ascii (c : Nat) (hc : c < 0x80) : utf8EncodeChar c = [c] := by
  rw [utf8EncodeChar, if_pos hc]

theorem utf8Encode_ascii (s : List Nat) (h : ∀ c ∈ s, c < 0x80) :
    utf8Encode s = s := by
  induction s with
  | nil => rfl
  | cons c t ih =>
    have hc : c < 0x80 := h c (List.mem_cons_self c t)
    have ht : ∀ x ∈ t, x < 0x80 := fun x hx => h x (List.mem_cons_of_mem c hx)
    have ih2 := ih ht
    simp only [utf8Encode, List.map_cons, List.flatten_cons, utf8EncodeChar_ascii c hc]
    simp only [utf8Encode] at ih2
    rw [ih2]
    rfl

theorem utf8Decode_cons_ascii (c : Nat) (t : List Nat) (hc : c < 0x80) :
    utf8Decode (c :: t) = (utf8Decode t).map (c :: ·) := by
  show utf8DecodeSM 0 0 0 (c :: t) = (utf8DecodeSM 0 0 0 t).map (c :: ·)
  rw [utf8DecodeSM]
  rw [if_pos rfl, if_pos hc]

theorem utf8Decode_ascii (s : List Nat) (h : ∀ c ∈ s, c < 0x80) :
    utf8Decode s = some s := by
  induction s with
  | nil => rfl
  | cons c t ih =>
    have hc : c < 0x80 := h c (List.mem_cons_self c t)
    have ht : ∀ x ∈ t, x < 0x80 := fun x hx => h x (List.mem_cons_of_mem c hx)
    rw [utf8Decode_cons_ascii c t hc, ih ht]
    rfl


/-- A Unicode scalar value: a code point that Python's utf-8 codec will
encode (`str.encode` rejects surrogates and nothing valid exceeds
U+10FFFF). -/
def validScalar (c : Nat) : Prop :=
  c < 0xD800 ∨ (0xE000 ≤ c ∧ c ≤ 0x10FFFF)

instance (c : Nat) : Decidable (validScalar c) := by
  unfold validScalar; infer_instance

theorem utf8DecodeSM_encodeChar (c : Nat) (rest : List Nat) (hv : validScalar c) :
    utf8DecodeSM 0 0 0 (utf8EncodeChar c ++ rest) =
      (utf8DecodeSM 0 0 0 rest).map (c :: ·) := by
  unfold validScalar at hv
  by_cases h1 : c < 0x80
  · rw [utf8EncodeChar, if_pos h1]
    simp only [List.cons_append, List.nil_append]
    rw [utf8DecodeSM, if_pos rfl, if_pos h1]
  · by_cases h2 : c < 0x800
    · rw [utf8EncodeChar, if_neg h1, if_pos h2]
      simp only [List.cons_append, List.nil_append]
      rw [utf8DecodeSM, if_pos rfl, if_neg (by omega), if_neg (by omega), if_pos (by omega)]
      rw [utf8DecodeSM, if_neg (by omega),
        if_pos (show contByte (0x80 + c % 64) by unfold contByte; omega), if_pos rfl]
      have hacc : (0xC0 + c / 64 - 0xC0) * 64 + (0x80 + c % 64 - 0x80) = c := by omega
      rw [hacc, if_pos (by omega)]
    · by_cases h3 : c < 0x10000
      · have d1 : c / 64 / 64 = c / 4096 := by
          rw [Nat.div_div_eq_div_mul]
        rw [utf8EncodeChar, if_neg h1, if_neg h2, if_pos h3]
        simp only [List.cons_append, List.nil_append]
        rw [utf8DecodeSM, if_pos rfl, if_neg (by omega), if_neg (by omega),
          if_neg (by omega), if_pos (by omega)]
        rw [utf8DecodeSM, if_neg (by omega),
          if_pos (show contByte (0x80 + c / 64 % 64) by unfold contByte; omega),
          if_neg (by omega)]
        rw [utf8DecodeSM, if_neg (by omega),
          if_pos (show contByte (0x80 + c % 64) by unfold contByte; omega),
          if_pos (by omega)]
        have hacc : ((0xE0 + c / 4096 - 0xE0) * 64 + (0x80 + c / 64 % 64 - 0x80)) * 64 +
            (0x80 + c % 64 - 0x80) = c := by omega
        rw [hacc, if_pos (by omega)]
      · have d1 : c / 64 / 64 = c / 4096 := by
          rw [Nat.div_div_eq_div_mul]
        have d2 : c / 4096 / 64 = c / 262144 := by
          rw [Nat.div_div_eq_div_mul]
        have hmax : c ≤ 0x10FFFF := by omega
        rw [utf8EncodeChar, if_neg h1, if_neg h2, if_neg h3]
        simp only [List.cons_append, List.nil_append]
        rw [utf8DecodeSM, if_pos rfl, if_neg (by omega), if_neg (by omega),
          if_neg (by omega), if_neg (by omega), if_pos (by omega)]
        rw [utf8DecodeSM, if_neg (by omega),
          if_pos (show contByte (0x80 + c / 4096 % 64) by unfold contByte; omega),
          if_neg (by omega)]
        rw [utf8DecodeSM, if_neg (by omega),
          if_pos (show contByte (0x80 + c / 64 % 64) by unfold contByte; omega),
          if_neg (by omega)]
        rw [utf8DecodeSM, if_neg (by omega),
          if_pos (show contByte (0x80 + c % 64) by unfold contByte; omega),
          if_pos (by omega)]
        have hacc : (((0xF0 + c / 262144 - 0xF0) * 64 + (0x80 + c / 4096 % 64 - 0x80)) * 64 +
            (0x80 + c / 64 % 64 - 0x80)) * 64 + (0x80 + c % 64 - 0x80) = c := by omega
        rw [hacc, if_pos (by omega)]

theorem utf8Decode_utf8Encode (v : List Nat) (hv : ∀ c ∈ v, validScalar c) :
    utf8Decode (utf8Encode v) = some v := by
  induction v with
  | nil => rfl
  | cons c t ih =>
    have hc := hv c (List.mem_cons_self c t)
    have ht : ∀ x ∈ t, validScalar x := fun x hx => hv x (List.mem_cons_of_mem c hx)
    have henc : utf8Encode (c :: t) = utf8EncodeChar c ++ utf8Encode t := by
      simp [utf8Encode]
    show utf8DecodeSM 0 0 0 (utf8Encode (c :: t)) = some (c :: t)
    rw [henc, utf8DecodeSM_encodeChar c _ hc]
    have ih2 : utf8DecodeSM 0 0 0 (utf8Encode t) = some t := ih ht
    rw [ih2]
    rfl

/-! ## StringField -/

/-- `struct.pack` on an `Ns` format: the byte string is truncated or padded
with null bytes to exactly `n` bytes. -/
def packPaddedBytes (n : Nat) (b : List Nat) : List Nat :=
  b.take n ++ List.replicate (n - b.length) 0

/-- The state of a `StringField` (`bytefields/fields.py` lines 309-353):
declared offset, current size (0 for a fresh variable-length field, whose
format is then the empty string format `0s`), and whether the field is
variable-length (`is_instance`, set when `length=None` was passed). The
encoding is fixed to the default utf-8. The `format` attribute is
determined by `size` (`f'\x7bsize\x7ds'`) and is not carried separately. -/
structure StrField where
  offset : Nat
  size : Nat
  instanceFlag : Bool
  deriving DecidableEq, Repr

/-- `StringField.resize` (`bytefields/fields.py` lines 341-343): record the
new length and rebuild the format string. -/
def stringResize (f : StrField) (length : Nat) : StrField :=
  { f with size := length }

/-- `StringField._getvalue` (`bytefields/fields.py` lines 345-346):
`SimpleField._getvalue` on the `Ns` format — bounds check, slice — then
`bytes.decode`, which raises on invalid utf-8. -/
def stringGet (s : ByteStruct) (f : StrField) : Except Err (List Nat) :=
  let o := calcOffset s f.offset
  if o + f.size > s.data.length then
    .error .outOfBounds
  else
    match utf8Decode ((s.data.drop o).take f.size) with
    | some cs => .ok cs
    | none => .error .decodeError

/-- `StringField._setvalue` (`bytefields/fields.py` lines 348-353):
`new_length = len(value)` is the number of code points; a variable-length
field whose size differs is first resized (buffer splice modelled from
spec 4.3, size update per `StringField.resize`), then
`SimpleField._setvalue` packs `value.encode('utf-8')` into the `Ns`
format, truncating or null-padding the encoded bytes to the field size. -/
def stringSet (s : ByteStruct) (f : StrField) (v : List Nat) :
    Except Err (ByteStruct × StrField) :=
  let newLength := v.length
  let s1 := if f.instanceFlag ∧ newLength ≠ f.size then
    resizeData s f.offset f.size newLength else s
  let f1 := if f.instanceFlag ∧ newLength ≠ f.size then stringResize f newLength else f
  let o := calcOffset s1 f1.offset
  if o + f1.size > s1.data.length then
    .error .outOfBounds
  else
    .ok ({ s1 with data := writeAt s1.data o (packPaddedBytes f1.size (utf8Encode v)) }, f1)

/-! ## ByteArrayField -/

/-- The state of a `ByteArrayField` (`bytefields/fields.py` lines 164-172,
`nativefields/fields.py` lines 126-136): declared offset, current size and
the instance flag. -/
structure BAField where
  offset : Nat
  size : Nat
  instanceFlag : Bool
  deriving DecidableEq, Repr

/-- `ByteArrayField.__init__` in the bytefields variant (lines 164-172):
`length=None` makes the field variable (`size 0`, `is_instance True`);
otherwise `size = length` and `is_instance` keeps the base-class default
(False; the base class is not under the sources reviewed here, the default
is modelled from spec 3, which reserves `is_instance` for variable
fields). -/
def bfByteArrayInit (length : Option Nat) (off : Nat) : BAField :=
  match length with
  | none => { offset := off, size := 0, instanceFlag := true }
  | some L => { offset := off, size := L, instanceFlag := false }

/-- `ByteArrayField.__init__` in the nativefields variant (lines 126-136):
the same branch on `length`, but line 134 then assigns
`self.is_instance = False` unconditionally, overwriting the `True` stored
for `length=None`. -/
def nfByteArrayInit (length : Option Nat) (off : Nat) : BAField :=
  let f : BAField :=
    match length with
    | none => { offset := off, size := 0, instanceFlag := true }
    | some L => { offset := off, size := L, instanceFlag := false }
  { f with instanceFlag := false }

/-- `ByteArrayField.resize` (`bytefields/fields.py` lines 174-175): record
the new length on the descriptor. -/
def byteArrayResize (f : BAField) (length : Nat) : BAField :=
  { f with size := length }

/-- `ByteArrayField._getvalue` in the bytefields variant (lines 177-178):
no bounds check is performed; a `ByteArrayFieldProxy` — modelled from
spec 4.6 as the lightweight handle `(container, field)`, since
`array_proxy.py` is not under the sources reviewed here — is returned
unconditionally. -/
def bfByteArrayGet (s : ByteStruct) (f : BAField) : Except Err (ByteStruct × BAField) :=
  .ok (s, f)

/-- `ByteArrayField._getvalue` in the nativefields variant (lines 141-146):
bounds check, then the raw slice of the buffer. -/
def nfByteArrayGet (s : ByteStruct) (f : BAField) : Except Err (List Nat) :=
  let o := calcOffset s f.offset
  if o + f.size > s.data.length then
    .error .outOfBounds
  else
    .ok ((s.data.drop o).take f.size)

/-- `ByteArrayField._setvalue` (bytefields lines 180-194, nativefields
lines 148-162; the two bodies are the same logic): a variable field whose
size differs from `len(value)` is resized (splice modelled from spec 4.3,
size update per `ByteArrayField.resize`); otherwise the length must equal
the declared size or the assertion fails; then bounds are checked and the
bytes written. -/
def byteArraySet (s : ByteStruct) (f : BAField) (v : List Nat) :
    Except Err (ByteStruct × BAField) :=
  let newLength := v.length
  if f.instanceFlag ∧ newLength ≠ f.size then
    let s1 := resizeData s f.offset f.size newLength
    let f1 := byteArrayResize f newLength
    let o := calcOffset s1 f1.offset
    if o + f1.size > s1.data.length then
      .error .outOfBounds
    else
      .ok ({ s1 with data := writeAt s1.data o v }, f1)
  else
    if newLength = f.size then
      let o := calcOffset s f.offset
      if o + f.size > s.data.length then
        .error .outOfBounds
      else
        .ok ({ s with data := writeAt s.data o v }, f)
    else
      .error .mismatch

/-! ## VariableField

The runtime-typed slot holds an optional child descriptor of an arbitrary
field kind; the behaviour under scrutiny is the unbound case, where the
child's own get/set (passed in as delegates) is never reached. -/

/-- The state of a `VariableField` (`bytefields/fields.py` lines 507-511,
`nativefields/fields.py` lines 319-323): offset, optional bound child
descriptor, recorded size. -/
structure VarField (χ : Type) where
  offset : Nat
  child : Option χ
  size : Nat

/-- `VariableField._getvalue` in the bytefields variant (lines 520-524):
an unbound slot reads as Python `None`; a bound slot delegates. -/
def bfVarGet {χ V : Type} (getChild : χ → Except Err V) (f : VarField χ) :
    Except Err (Option V) :=
  match f.child with
  | none => .ok none
  | some c =>
    match getChild c with
    | .error e => .error e
    | .ok v => .ok (some v)

/-- `VariableField._setvalue` in the bytefields variant (lines 526-532):
an unbound slot raises; a bound slot delegates. -/
def bfVarSet {χ S : Type} (setChild : χ → Except Err S) (f : VarField χ) :
    Except Err S :=
  match f.child with
  | none => .error .unbound
  | some c => setChild c

/-- `VariableField._getvalue` in the nativefields variant (lines 330-335):
an unbound slot raises; a bound slot delegates. -/
def nfVarGet {χ V : Type} (getChild : χ → Except Err V) (f : VarField χ) :
    Except Err V :=
  match f.child with
  | none => .error .unbound
  | some c => getChild c

/-- `VariableField._setvalue` in the nativefields variant (lines 337-344):
an unbound slot raises; a bound slot delegates and then records the
child's size on the slot. -/
def nfVarSet {χ S : Type} (setChild : χ → Except Err S) (childSize : χ → Nat)
    (f : VarField χ) : Except Err (S × VarField χ) :=
  match f.child with
  | none => .error .unbound
  | some c =>
    match setChild c with
    | .error e => .error e
    | .ok s => .ok (s, { f with size := childSize c })

/-! ## StructField -/

/-- The state of a `StructField` as far as reads are concerned: declared
offset and the cached child container `inner` (`None` until first use). -/
structure SFState where
  offset : Nat
  inner : Option ByteStruct
  deriving DecidableEq, Repr

/-- `StructField._getvalue` in the bytefields variant (lines 75-85): if no
child is cached, construct one over the parent's buffer at the freshly
resolved offset; otherwise update the cached child's buffer reference and
master offset. Either way the cached child is the returned one. -/
def bfStructGet (s : ByteStruct) (f : SFState) : ByteStruct × SFState :=
  match f.inner with
  | none =>
    let child : ByteStruct := { data := s.data, master_offset := calcOffset s f.offset }
    (child, { f with inner := some child })
  | some i =>
    let child : ByteStruct := { i with data := s.data, master_offset := calcOffset s f.offset }
    (child, { f with inner := some child })

/-- `StructField._getvalue` in the nativefields variant (lines 64-74): a
missing child is constructed over the parent's buffer (master offset
initially the constructor default 0), an existing one has its buffer
updated; in both branches line 73 then sets the child's master offset to
the freshly resolved offset. -/
def nfStructGet (s : ByteStruct) (f : SFState) : ByteStruct × SFState :=
  let base : ByteStruct :=
    match f.inner with
    | none => { data := s.data, master_offset := 0 }
    | some i => { i with data := s.data }
  let child := { base with master_offset := calcOffset s f.offset }
  (child, { f with inner := some child })

/-- An assigned record value: its byte buffer and its current total size.
For a top-level record the two agree (`len(data) = size`); the writes
below state this as a hypothesis where they rely on it. -/
structure RecVal where
  data : List Nat
  size : Nat
  deriving DecidableEq, Repr

/-- The state of a `StructField` as far as writes are concerned in the
bytefields variant: offset and the cached inner record. The field's
`size` reads through `get_size` — the size of the cached inner record,
or the record type's `min_size` before any caching (`minSize` here);
that `self.size` resolves this way is modelled from the spec
(`current_size` of an instance-sized field is its recorded runtime state,
spec 4.1), since the attribute plumbing lives in `base.py`, which is not
under the sources reviewed here. -/
structure BFSF where
  offset : Nat
  minSize : Nat
  inner : Option RecVal
  deriving DecidableEq, Repr

/-- The current size of the bytefields struct field: the cached record's
size, else the type minimum. -/
def bfsfSize (f : BFSF) : Nat :=
  match f.inner with
  | some i => i.size
  | none => f.minSize

/-- `StructField._setvalue` in the bytefields variant (lines 87-95): read
the old size, cache `deepcopy(value)` (a private copy — in this pure
model, caching the value itself), re-read the size (now the assigned
record's), splice the buffer if the two differ, then copy the record's
bytes over the field's range with a slice assignment. The caller's record
value is returned unchanged: the code never writes into `value`. -/
def bfStructSet (s : ByteStruct) (f : BFSF) (value : RecVal) :
    ByteStruct × BFSF × RecVal :=
  let oldSize := bfsfSize f
  let f1 : BFSF := { f with inner := some value }
  let newSize := bfsfSize f1
  let s1 := if newSize ≠ oldSize then resizeData s f.offset oldSize newSize else s
  let o := calcOffset s1 f.offset
  ({ s1 with data := spliceAssign s1.data o newSize value.data }, f1, value)

/-- The state of a `StructField` for writes in the nativefields variant:
offset, the explicitly stored `size` attribute, and the cached inner. -/
structure NFSF where
  offset : Nat
  size : Nat
  inner : Option RecVal
  deriving DecidableEq, Repr

/-- `StructField._setvalue` in the nativefields variant (lines 76-85):
read the old size, store the assigned record's size, splice the buffer if
the two differ, copy the record's bytes into place — and then line 84
assigns `value.data = bytearray()`, emptying the caller's record's
buffer, before caching `deepcopy(value)` (a copy of the now-emptied
record). The mutated caller value is the third component returned. -/
def nfStructSet (s : ByteStruct) (f : NFSF) (value : RecVal) :
    ByteStruct × NFSF × RecVal :=
  let oldSize := f.size
  let newSize := value.size
  let s1 := if newSize ≠ oldSize then resizeData s f.offset oldSize newSize else s
  let o := calcOffset s1 f.offset
  let s2 := { s1 with data := spliceAssign s1.data o newSize value.data }
  let value1 : RecVal := { value with data := [] }
  (s2, { f with size := newSize, inner := some value1 }, value1)

/-! ## ArrayField -/

/-- What `ArrayField.__init__` sees of its constructed element descriptor:
its size, its `is_instance` flag, and whether it is a `StructField`
(constructed when a record type is passed as the element type). -/
structure ElemDesc where
  size : Nat
  instanceFlag : Bool
  isStruct : Bool
  deriving DecidableEq, Repr

/-- The state of an `ArrayField`: offset, current shape, instance flag,
element size, and current total size (`_update_size`:
`elem_size * prod(shape)`). -/
structure ArrField where
  offset : Nat
  shape : List Nat
  instanceFlag : Bool
  elemSize : Nat
  size : Nat
  deriving DecidableEq, Repr

/-- `ArrayField.__init__` in the bytefields variant (lines 425-452): after
building the element field, reject an element whose `is_instance` is set
unless it is a `StructField` (lines 443-444); a falsy shape (`None`, the
empty tuple, `0`) makes the array dynamic with shape `(0,)`; the size is
`elem_size * prod(shape)`. -/
def bfArrayInit (elem : ElemDesc) (shape : Option (List Nat)) (off : Nat) :
    Except Err ArrField :=
  if elem.instanceFlag ∧ ¬ elem.isStruct then
    .error .invalidSchema
  else
    match shape with
    | some sh =>
      if sh ≠ [] then
        .ok { offset := off, shape := sh, instanceFlag := false,
              elemSize := elem.size, size := elem.size * sh.prod }
      else
        .ok { offset := off, shape := [0], instanceFlag := true,
              elemSize := elem.size, size := elem.size * ([0] : List Nat).prod }
    | none =>
      .ok { offset := off, shape := [0], instanceFlag := true,
            elemSize := elem.size, size := elem.size * ([0] : List Nat).prod }

/-- `ArrayField.__init__` in the nativefields variant (lines 245-265): the
same construction but with no check on the element's `is_instance` flag —
no element type is rejected. -/
def nfArrayInit (elem : ElemDesc) (shape : Option (List Nat)) (off : Nat) : ArrField :=
  match shape with
  | some sh =>
    if sh ≠ [] then
      { offset := off, shape := sh, instanceFlag := false,
        elemSize := elem.size, size := elem.size * sh.prod }
    else
      { offset := off, shape := [0], instanceFlag := true,
        elemSize := elem.size, size := elem.size * ([0] : List Nat).prod }
  | none =>
    { offset := off, shape := [0], instanceFlag := true,
      elemSize := elem.size, size := elem.size * ([0] : List Nat).prod }

/-- `ArrayField.resize` (bytefields lines 454-456): store the new shape and
recompute the size. -/
def arrayResize (f : ArrField) (sh : List Nat) : ArrField :=
  { f with shape := sh, size := f.elemSize * sh.prod }

/-- `ArrayField.get_array_index` (`nativefields/fields.py` lines 274-278;
the bytefields variant imports the identical `_get_array_index`): after
asserting a nonempty shape of the same rank as the index, the row-major
linear index
`sum(index[i] * prod(shape[i+1:]) for i in range(len(index)-1)) + index[-1]`. -/
def get_array_index (shape index : List Nat) : Except Err Nat :=
  if shape = [] then .error .mismatch
  else if shape.length ≠ index.length then .error .mismatch
  else
    .ok ((((List.range (index.length - 1)).map
      (fun i => index.getD i 0 * (shape.drop (i + 1)).prod)).sum) + index.getLastD 0)

/-- The loop body of `ArrayField._setvalue`/`_getvalue` (bytefields lines
477-479, nativefields lines 287-289/311-313): the element descriptor is
positioned at `arr_offset + linear_index * elem_size`. -/
def elemFieldOffset (arrOffset elemSize linearIndex : Nat) : Nat :=
  arrOffset + linearIndex * elemSize

/-- A value assigned to an array field: either a numpy array (carrying its
shape and row-major elements) or a plain sequence. -/
inductive ArrVal where
  | nd (shape : List Nat) (elems : List Int)
  | seq (elems : List Int)
  deriving DecidableEq, Repr

/-- `np.array(value).shape` of an assigned value: a numpy array keeps its
shape, a plain sequence becomes a one-dimensional array of its length. -/
def valueShape (v : ArrVal) : List Nat :=
  match v with
  | .nd sh _ => sh
  | .seq es => [es.length]

/-- The row-major elements of an assigned value. -/
def valueElems (v : ArrVal) : List Int :=
  match v with
  | .nd _ es => es
  | .seq es => es

/-- The numpy broadcast `arr[:] = value` of `ArrayField._setvalue`,
modelled for one-dimensional target shapes (the shapes used in the claims
below): the value's elements must match the length, except that a single
element broadcasts to the whole extent; other ranks are modelled as an
exact row-major element-count match. -/
def broadcastTo (shape : List Nat) (elems : List Int) : Except Err (List Int) :=
  match shape with
  | [n] =>
    if elems.length = n then .ok elems
    else if elems.length = 1 then .ok (List.replicate n (elems.getD 0 0))
    else .error .broadcastMismatch
  | _ =>
    if elems.length = shape.prod then .ok elems else .error .broadcastMismatch

/-- The write loop of `ArrayField._setvalue` for an integer element field:
the element descriptor is repositioned to
`elemFieldOffset arr_offset elem_size j` for the `j`-th row-major index
and its `_setvalue` (with its own bounds and range checks) is invoked. -/
def writeElems (s : ByteStruct) (w : Nat) (sg : Bool) (o : ByteOrder)
    (arrOffset j : Nat) : List Int → Except Err ByteStruct
  | [] => .ok s
  | v :: rest =>
    match integerSet s { offset := elemFieldOffset arrOffset w j,
                         width := w, signed := sg, order := o } v with
    | .error e => .error e
    | .ok s1 => writeElems s1 w sg o arrOffset (j + 1) rest

/-- `ArrayField._setvalue` (bytefields lines 464-481) for an array of
integer elements of width `w`: a numpy-array value whose shape differs
from the field's is rejected by the assertion; a dynamic field whose
value shape differs is resized (splice modelled from spec 4.3, shape and
size update per `ArrayField.resize`); the value is then broadcast into
the field's shape and written element by element. -/
def bfArraySet (s : ByteStruct) (f : ArrField) (sg : Bool) (o : ByteOrder)
    (value : ArrVal) : Except Err (ByteStruct × ArrField) :=
  let check : Except Err Unit :=
    match value with
    | .nd sh _ => if sh ≠ f.shape then .error .mismatch else .ok ()
    | .seq _ => .ok ()
  match check with
  | .error e => .error e
  | .ok _ =>
    let vshape := valueShape value
    let s1 := if f.instanceFlag ∧ vshape ≠ f.shape then
      resizeData s f.offset f.size (f.elemSize * vshape.prod) else s
    let f1 := if f.instanceFlag ∧ vshape ≠ f.shape then arrayResize f vshape else f
    match broadcastTo f1.shape (valueElems value) with
    | .error e => .error e
    | .ok es => match writeElems s1 f1.elemSize sg o f1.offset 0 es with
      | .error e => .error e
      | .ok s2 => .ok (s2, f1)

/-! ## Shared descriptors across two containers (claim C4)

Modelled from the spec: field descriptors are schema-level objects shared
by every instance of a record type (spec 3), and `base.py`, which stores
them on the class, is not under the sources reviewed here. Two containers
of the same record type therefore resolve their layout through one and the
same descriptor object, whose `size` attribute the `resize` methods above
mutate. -/
structure TwoContainers where
  aData : List Nat
  bData : List Nat
  shared : BAField
  deriving DecidableEq, Repr

/-- Resize the shared byte-range descriptor through container A
(`ByteArrayField.resize`, bytefields lines 174-175). -/
def resizeViaA (tc : TwoContainers) (length : Nat) : TwoContainers :=
  { tc with shared := byteArrayResize tc.shared length }

/-- The field size container B observes: spec 4.1, the per-descriptor
recorded size. -/
def bObservedSize (tc : TwoContainers) : Nat :=
  tc.shared.size

/-- The resolved offset container B observes for a field declared
immediately after the shared one: spec 4.1, sequential resolution —
B's master offset plus the sizes of the fields declared before it. -/
def bObservedNextOffset (tc : TwoContainers) (bMaster : Nat) : Nat :=
  bMaster + tc.shared.size

/-! ## Claim C2 -/

/-- C2: a runtime-typed slot (`VariableField`) that has not been bound to a
child descriptor fails every set with the unbound-slot error in both
variants, for every child kind and delegate; unbound reads follow one
policy consistently per variant — the bytefields variant always returns
Python `None`, the nativefields variant always raises the same
unbound-slot error. -/
theorem c2_unbound_slot (χ V S : Type) (getChild : χ → Except Err V)
    (setChild : χ → Except Err S) (childSize : χ → Nat) (off sz : Nat) :
    bfVarSet setChild { offset := off, child := none, size := sz } = .error .unbound
    ∧ nfVarSet setChild childSize { offset := off, child := none, size := sz } =
        .error .unbound
    ∧ bfVarGet getChild { offset := off, child := none, size := sz } = .ok none
    ∧ nfVarGet getChild { offset := off, child := none, size := sz } = .error .unbound := by
  exact ⟨rfl, rfl, rfl, rfl⟩

/-! ## Claim C5 -/

/-- C5: reading an embedded-record field through the parent yields a child
container whose buffer is the parent's current buffer and whose master
offset is the parent's freshly resolved offset for the field at the
moment of the read — in both variants, whatever child (stale or absent)
was cached before the read. -/
theorem c5_fresh_child (s : ByteStruct) (f : SFState) :
    ((bfStructGet s f).1.data = s.data
      ∧ (bfStructGet s f).1.master_offset = calcOffset s f.offset)
    ∧ ((nfStructGet s f).1.data = s.data
      ∧ (nfStructGet s f).1.master_offset = calcOffset s f.offset) := by
  cases h : f.inner <;> simp [bfStructGet, nfStructGet, h]

/-! ## Claim C10 -/

/-- C10: the two `ByteArrayField` constructors agree on `size` for every
length, and agree on `is_instance` for integer lengths — but for
`length=None` the nativefields constructor's unconditional
`self.is_instance = False` (line 134) dead-stores the `True` of line 130,
so the variants disagree exactly there: a variable byte range then fails
the length assertion on assignment instead of resizing, while the
bytefields variant resizes. -/
theorem c10_init_divergence (L off : Nat) :
    (bfByteArrayInit (some L) off).size = L
    ∧ (nfByteArrayInit (some L) off).size = L
    ∧ (bfByteArrayInit (some L) off).instanceFlag = (nfByteArrayInit (some L) off).instanceFlag
    ∧ (bfByteArrayInit none off).size = (nfByteArrayInit none off).size
    ∧ (bfByteArrayInit none off).instanceFlag = true
    ∧ (nfByteArrayInit none off).instanceFlag = false
    ∧ byteArraySet { data := [], master_offset := 0 } (nfByteArrayInit none 0) [1, 2, 3] =
        .error .mismatch
    ∧ byteArraySet { data := [], master_offset := 0 } (bfByteArrayInit none 0) [1, 2, 3] =
        .ok ({ data := [1, 2, 3], master_offset := 0 },
             { offset := 0, size := 3, instanceFlag := true }) := by
  refine ⟨rfl, rfl, rfl, rfl, rfl, rfl, rfl, ?_⟩
  rfl

/-! ## Claim C6 -/

/-- C6 counterexample: an `ArrayField` over an instance-sized
embedded-record element — a `StructField`, whose `is_instance` is always
`True`, standing for a record type that contains dynamically sized
fields — is accepted by the bytefields constructor (the rejection on
lines 443-444 exempts `StructField`s), so the claimed rejection of every
instance-sized element type does not happen. -/
theorem c6_struct_elem_accepted :
    bfArrayInit { size := 8, instanceFlag := true, isStruct := true } (some [2]) 0 ≠
      .error .invalidSchema := by
  intro h
  simp [bfArrayInit] at h

/-- C6 amended: the bytefields constructor rejects exactly the elements
that are instance-sized and not embedded-record (`StructField`) elements;
embedded-record elements are accepted even when instance-sized; and the
nativefields constructor performs no construction-time rejection at all,
producing a descriptor for every element. -/
theorem c6_reject_exactly_nonstruct_instance (elem : ElemDesc)
    (shape : Option (List Nat)) (off : Nat) :
    (bfArrayInit elem shape off = .error .invalidSchema ↔
      (elem.instanceFlag = true ∧ elem.isStruct = false))
    ∧ (nfArrayInit elem shape off).elemSize = elem.size := by
  constructor
  · constructor
    · intro h
      by_cases hcond : elem.instanceFlag ∧ ¬ elem.isStruct
      · simpa using hcond
      · exfalso
        rw [bfArrayInit.eq_def, if_neg hcond] at h
        cases shape with
        | none => simp at h
        | some sh =>
          by_cases hsh : sh ≠ []
          · simp [hsh] at h
          · simp [hsh] at h
    · intro h
      rw [bfArrayInit.eq_def, if_pos (by simpa using h)]
  · cases shape with
    | none => rfl
    | some sh =>
      by_cases hsh : sh ≠ []
      · simp [nfArrayInit, hsh]
      · simp [nfArrayInit, hsh]

/-- C6 witness: the amended theorem applied to a variable-length string
element (instance-sized, not a record), which is rejected, alongside the
accepting run on an instance-sized record element. -/
theorem c6_reject_witness :
    bfArrayInit { size := 0, instanceFlag := true, isStruct := false } (some [3]) 0 =
      .error .invalidSchema :=
  (c6_reject_exactly_nonstruct_instance
    { size := 0, instanceFlag := true, isStruct := false } (some [3]) 0).1.mpr
    ⟨rfl, rfl⟩

/-! ## Claim C4 -/

/-- C4 counterexample: two containers of the same record type share the
schema-level descriptor; resizing the variable byte-range field through
container A (to length 5, from 0) changes the size — and the resolved
offset of the following field — that container B observes. -/
theorem c4_resize_interferes :
    bObservedSize (resizeViaA
      { aData := [], bData := [],
        shared := { offset := 0, size := 0, instanceFlag := true } } 5) ≠
      bObservedSize
        { aData := [], bData := [],
          shared := { offset := 0, size := 0, instanceFlag := true } }
    ∧ bObservedNextOffset (resizeViaA
        { aData := [], bData := [],
          shared := { offset := 0, size := 0, instanceFlag := true } } 5) 0 = 5 := by
  exact ⟨by decide, rfl⟩

/-- C4 amended: the current size of an instance-sized field is
descriptor-level state shared by all containers of the record type, not
per-instance state: resizing through container A updates the size — and
shifts the sequentially resolved offset of every following field — that
container B observes, to the same new value, while leaving B's bytes
untouched; the `resize` methods of the variable string and the dynamic
array mutate the same shared `size` attribute. -/
theorem c4_descriptor_shared (tc : TwoContainers) (len bMaster : Nat)
    (sf : StrField) (af : ArrField) (sh : List Nat) :
    bObservedSize (resizeViaA tc len) = len
    ∧ bObservedNextOffset (resizeViaA tc len) bMaster = bMaster + len
    ∧ (resizeViaA tc len).bData = tc.bData
    ∧ (stringResize sf len).size = len
    ∧ (arrayResize af sh).size = af.elemSize * sh.prod := by
  exact ⟨rfl, rfl, rfl, rfl, rfl⟩

/-! ## Claim C7 -/

theorem getLastD_eq_getD (l : List Nat) (d : Nat) (h : l ≠ []) :
    l.getLastD d = l.getD (l.length - 1) d := by
  induction l generalizing d with
  | nil => cases h rfl
  | cons a t ih =>
    cases t with
    | nil => rfl
    | cons b u =>
      have h2 : (b :: u : List Nat) ≠ [] := by simp
      have hlen : (a :: b :: u : List Nat).length - 1 = (b :: u : List Nat).length - 1 + 1 := by
        simp
      rw [List.getLastD_cons, ih a h2, hlen, List.getD_cons_succ]
      have hb : (b :: u : List Nat).length - 1 < (b :: u : List Nat).length := by simp
      rw [List.getD_eq_getElem (b :: u) a hb, List.getD_eq_getElem (b :: u) d hb]

/-- C7: for a nonempty shape and an index of the same rank, the linear
element index computed by `get_array_index` is the row-major value
`sum over k in [0, n-2] of i_k * prod(s_(k+1)..s_(n-1)), plus i_(n-1)`;
in particular for shape `(2,3)` the index of `(1,2)` is 5 and of `(0,0)`
is 0; and the write/read loops position each element at byte offset
`array_start + linear_index * element_size`. -/
theorem c7_row_major_index (shape index : List Nat) (h1 : shape ≠ [])
    (h2 : shape.length = index.length) :
    get_array_index shape index =
      .ok ((((List.range (shape.length - 1)).map
        (fun k => index.getD k 0 * (shape.drop (k + 1)).prod)).sum)
        + index.getD (shape.length - 1) 0)
    ∧ get_array_index [2, 3] [1, 2] = .ok 5
    ∧ get_array_index [2, 3] [0, 0] = .ok 0
    ∧ (∀ arrOff esz li, get_array_index shape index = .ok li →
        elemFieldOffset arrOff esz li = arrOff + li * esz) := by
  refine ⟨?_, rfl, rfl, fun arrOff esz li _ => rfl⟩
  have hne : index ≠ [] := by
    intro hnil
    rw [hnil] at h2
    simp at h2
    exact h1 h2
  rw [get_array_index, if_neg h1, if_neg (by omega)]
  rw [h2, getLastD_eq_getD index 0 hne]

/-- C7 witness: the row-major theorem applied to shape `(2,3)` and index
`(1,2)`, yielding linear index 5. -/
theorem c7_row_major_witness : get_array_index [2, 3] [1, 2] = .ok 5 :=
  (c7_row_major_index [2, 3] [1, 2] (by decide) (by decide)).2.1

/-! ## Claim C3 -/

/-- C3 counterexample: a fixed 4-byte `ByteArrayField` read through the
bytefields variant over an empty buffer — the resolved range exceeds the
buffer, yet `_getvalue` returns the proxy handle and raises no
out-of-bounds error. -/
theorem c3_get_no_bounds_check :
    calcOffset { data := [], master_offset := 0 } 0 + 4 >
      (({ data := [], master_offset := 0 } : ByteStruct)).data.length
    ∧ bfByteArrayGet { data := [], master_offset := 0 }
        { offset := 0, size := 4, instanceFlag := false } ≠ .error .outOfBounds := by
  constructor
  · decide
  · intro h
    simp [bfByteArrayGet] at h

/-- C3 amended: every scalar and string get/set, the byte-range set (at
matching length, where the assertion does not fire first), and the
nativefields byte-range get raise the out-of-bounds error exactly when
the resolved offset plus the field size exceeds the buffer length; the
bytefields byte-range get is the exception — it performs no bounds check
and returns the write-through proxy handle unconditionally. -/
theorem c3_bounds_amended :
    (∀ (s : ByteStruct) (f : IntField),
      integerGet s f = .error .outOfBounds ↔ calcOffset s f.offset + f.width > s.data.length)
    ∧ (∀ (s : ByteStruct) (f : IntField) (v : Int),
      integerSet s f v = .error .outOfBounds ↔
        calcOffset s f.offset + f.width > s.data.length)
    ∧ (∀ (s : ByteStruct) (f : StrField),
      stringGet s f = .error .outOfBounds ↔ calcOffset s f.offset + f.size > s.data.length)
    ∧ (∀ (s : ByteStruct) (f : StrField) (v : List Nat),
      f.instanceFlag = false ∨ v.length = f.size →
      (stringSet s f v = .error .outOfBounds ↔
        calcOffset s f.offset + f.size > s.data.length))
    ∧ (∀ (s : ByteStruct) (f : BAField) (v : List Nat),
      v.length = f.size →
      (byteArraySet s f v = .error .outOfBounds ↔
        calcOffset s f.offset + f.size > s.data.length))
    ∧ (∀ (s : ByteStruct) (f : BAField),
      nfByteArrayGet s f = .error .outOfBounds ↔ calcOffset s f.offset + f.size > s.data.length)
    ∧ (∀ (s : ByteStruct) (f : BAField), bfByteArrayGet s f = .ok (s, f)) := by
  refine ⟨?_, ?_, ?_, ?_, ?_, ?_, fun s f => rfl⟩
  · intro s f
    by_cases hb : calcOffset s f.offset + f.width > s.data.length
    · simp [integerGet, hb]
    · simp [integerGet, hb]
  · intro s f v
    by_cases hb : calcOffset s f.offset + f.width > s.data.length
    · simp [integerSet, hb]
    · cases hp : packInt f.width f.signed f.order v with
      | none => simp [integerSet, hb, hp]
      | some bs => simp [integerSet, hb, hp]
  · intro s f
    by_cases hb : calcOffset s f.offset + f.size > s.data.length
    · simp [stringGet, hb]
    · cases hd : utf8Decode ((s.data.drop (calcOffset s f.offset)).take f.size) with
      | none => simp [stringGet, hb, hd]
      | some cs => simp [stringGet, hb, hd]
  · intro s f v h
    have hcond : ¬ (f.instanceFlag = true ∧ v.length ≠ f.size) := by
      rcases h with h | h
      · simp [h]
      · simp [h]
    by_cases hb : calcOffset s f.offset + f.size > s.data.length
    · simp [stringSet, hcond, hb]
    · simp [stringSet, hcond, hb]
  · intro s f v h
    have hcond : ¬ (f.instanceFlag = true ∧ v.length ≠ f.size) := by simp [h]
    by_cases hb : calcOffset s f.offset + f.size > s.data.length
    · simp [byteArraySet, hcond, h, hb]
    · simp [byteArraySet, hcond, h, hb]
  · intro s f
    by_cases hb : calcOffset s f.offset + f.size > s.data.length
    · simp [nfByteArrayGet, hb]
    · simp [nfByteArrayGet, hb]

/-- C3 witness: the amended theorem applied to a fixed 4-byte string field
over an empty buffer — the set raises the out-of-bounds error. -/
theorem c3_bounds_witness :
    stringSet { data := [], master_offset := 0 }
      { offset := 0, size := 4, instanceFlag := false } [104] = .error .outOfBounds := by
  have h := c3_bounds_amended.2.2.2.1 { data := [], master_offset := 0 }
    { offset := 0, size := 4, instanceFlag := false } [104] (Or.inl rfl)
  exact h.mpr (by decide)

/-! ## Resize and write helper lemmas -/

theorem resizeData_master (s : ByteStruct) (off a b : Nat) :
    (resizeData s off a b).master_offset = s.master_offset := by
  unfold resizeData
  split <;> rfl

theorem calcOffset_resizeData (s : ByteStruct) (off a b o2 : Nat) :
    calcOffset (resizeData s off a b) o2 = calcOffset s o2 := by
  unfold calcOffset
  rw [resizeData_master]

theorem resizeData_length (s : ByteStruct) (off oldSize newSize : Nat)
    (h : calcOffset s off + oldSize ≤ s.data.length) :
    (resizeData s off oldSize newSize).data.length + oldSize = s.data.length + newSize := by
  unfold resizeData
  by_cases hle : oldSize ≤ newSize
  · rw [if_pos hle]
    simp only [List.length_append, List.length_take, List.length_replicate, List.length_drop]
    omega
  · rw [if_neg hle]
    simp only [List.length_append, List.length_take, List.length_drop]
    omega

theorem spliceAssign_eq_writeAt (d : List Nat) (o n : Nat) (v : List Nat)
    (h : v.length = n) : spliceAssign d o n v = writeAt d o v := by
  unfold spliceAssign writeAt
  rw [h]

/-! ## Claim C9 -/

/-- C9 counterexample: in the nativefields variant, writing the record
`r = ⟨[1,2,3,4], 4⟩` into an embedded-record field empties the caller's
record buffer (`value.data = bytearray()`, line 84) — `r` is not left
unchanged by the write. -/
theorem c9_caller_record_mutated :
    (nfStructSet { data := [], master_offset := 0 }
      { offset := 0, size := 0, inner := none }
      { data := [1, 2, 3, 4], size := 4 }).2.2.data = []
    ∧ ([1, 2, 3, 4] : List Nat) ≠ [] := by
  exact ⟨rfl, by decide⟩

/-- The conditional resize step shared by both `StructField._setvalue`
variants: resolved offsets are unchanged by it. -/
theorem condResize_calcOffset (s : ByteStruct) (off oldSize newSize o2 : Nat) :
    calcOffset (if newSize ≠ oldSize then resizeData s off oldSize newSize else s) o2 =
      calcOffset s o2 := by
  split
  · exact calcOffset_resizeData s off oldSize newSize o2
  · rfl

/-- The conditional resize step changes the buffer length by exactly the
size delta, whether or not it fires. -/
theorem condResize_length (s : ByteStruct) (off oldSize newSize : Nat)
    (hin : calcOffset s off + oldSize ≤ s.data.length) :
    (if newSize ≠ oldSize then resizeData s off oldSize newSize else s).data.length + oldSize =
      s.data.length + newSize := by
  split
  · exact resizeData_length s off oldSize newSize hin
  · rename_i h
    rw [not_ne_iff] at h
    omega

/-- C9 amended: writing a record `r` into an embedded-record field changes
the buffer length by exactly `r.size - old field size` (the resize
protocol firing exactly on a size change), copies `r`'s bytes into the
parent buffer at the field's resolved offset, and caches a private copy
of the assigned record as the field's local default; in the bytefields
variant the caller's record is returned unchanged and is the cached
value, while in the nativefields variant the write first empties the
caller's record's buffer and caches a copy of the emptied record. -/
theorem c9_struct_write_amended :
    (∀ (s : ByteStruct) (f : BFSF) (v : RecVal),
      v.data.length = v.size →
      calcOffset s f.offset + bfsfSize f ≤ s.data.length →
      (bfStructSet s f v).2.2 = v
      ∧ (bfStructSet s f v).2.1.inner = some v
      ∧ (bfStructSet s f v).1.data.length + bfsfSize f = s.data.length + v.size
      ∧ ((bfStructSet s f v).1.data.drop (calcOffset s f.offset)).take v.size = v.data)
    ∧ (∀ (s : ByteStruct) (g : NFSF) (v : RecVal),
      v.data.length = v.size →
      calcOffset s g.offset + g.size ≤ s.data.length →
      (nfStructSet s g v).2.2.data = []
      ∧ (nfStructSet s g v).2.1.inner = some { data := [], size := v.size }
      ∧ (nfStructSet s g v).2.1.size = v.size
      ∧ (nfStructSet s g v).1.data.length + g.size = s.data.length + v.size
      ∧ ((nfStructSet s g v).1.data.drop (calcOffset s g.offset)).take v.size = v.data) := by
  constructor
  · intro s f v hlen hin
    have hl := condResize_length s f.offset (bfsfSize f) v.size hin
    refine ⟨rfl, rfl, ?_, ?_⟩
    · show (spliceAssign (if v.size ≠ bfsfSize f then
          resizeData s f.offset (bfsfSize f) v.size else s).data
          (calcOffset (if v.size ≠ bfsfSize f then
            resizeData s f.offset (bfsfSize f) v.size else s) f.offset)
          v.size v.data).length + bfsfSize f = s.data.length + v.size
      rw [spliceAssign_eq_writeAt _ _ _ _ hlen, condResize_calcOffset]
      rw [writeAt_length]
      · exact hl
      · omega
    · show ((spliceAssign (if v.size ≠ bfsfSize f then
          resizeData s f.offset (bfsfSize f) v.size else s).data
          (calcOffset (if v.size ≠ bfsfSize f then
            resizeData s f.offset (bfsfSize f) v.size else s) f.offset)
          v.size v.data).drop (calcOffset s f.offset)).take v.size = v.data
      rw [spliceAssign_eq_writeAt _ _ _ _ hlen, condResize_calcOffset]
      have h2 := writeAt_extract (if v.size ≠ bfsfSize f then
          resizeData s f.offset (bfsfSize f) v.size else s).data
        (calcOffset s f.offset) v.data (by omega)
      rw [hlen] at h2
      exact h2
  · intro s g v hlen hin
    have hl := condResize_length s g.offset g.size v.size hin
    refine ⟨rfl, rfl, rfl, ?_, ?_⟩
    · show (spliceAssign (if v.size ≠ g.size then
          resizeData s g.offset g.size v.size else s).data
          (calcOffset (if v.size ≠ g.size then
            resizeData s g.offset g.size v.size else s) g.offset)
          v.size v.data).length + g.size = s.data.length + v.size
      rw [spliceAssign_eq_writeAt _ _ _ _ hlen, condResize_calcOffset]
      rw [writeAt_length]
      · exact hl
      · omega
    · show ((spliceAssign (if v.size ≠ g.size then
          resizeData s g.offset g.size v.size else s).data
          (calcOffset (if v.size ≠ g.size then
            resizeData s g.offset g.size v.size else s) g.offset)
          v.size v.data).drop (calcOffset s g.offset)).take v.size = v.data
      rw [spliceAssign_eq_writeAt _ _ _ _ hlen, condResize_calcOffset]
      have h2 := writeAt_extract (if v.size ≠ g.size then
          resizeData s g.offset g.size v.size else s).data
        (calcOffset s g.offset) v.data (by omega)
      rw [hlen] at h2
      exact h2

/-- C9 witness: the amended theorem applied to a fresh parent and the
record `⟨[7,8], 2⟩` in both variants. -/
theorem c9_struct_write_witness :
    ((bfStructSet { data := [0, 0], master_offset := 0 }
        { offset := 0, minSize := 2, inner := none } { data := [7, 8], size := 2 }).2.2 =
      { data := [7, 8], size := 2 })
    ∧ ((nfStructSet { data := [0, 0], master_offset := 0 }
        { offset := 0, size := 2, inner := none } { data := [7, 8], size := 2 }).2.2.data = []) := by
  constructor
  · exact (c9_struct_write_amended.1 { data := [0, 0], master_offset := 0 }
      { offset := 0, minSize := 2, inner := none } { data := [7, 8], size := 2 }
      (by decide) (by decide)).1
  · exact (c9_struct_write_amended.2 { data := [0, 0], master_offset := 0 }
      { offset := 0, size := 2, inner := none } { data := [7, 8], size := 2 }
      (by decide) (by decide)).1

/-! ## Claim C8 -/

theorem packPaddedBytes_length (n : Nat) (b : List Nat) :
    (packPaddedBytes n b).length = n := by
  simp only [packPaddedBytes, List.length_append, List.length_take, List.length_replicate]
  omega

/-- C8 counterexample: setting a fixed 4-byte `StringField` to the 2-code
point string "hi" does not fail with any mismatch error — the encoded
bytes are null-padded to the declared length and the write succeeds, as
the field's own docstring describes. -/
theorem c8_fixed_string_truncates :
    ([104, 105] : List Nat).length ≠ 4
    ∧ stringSet { data := [0, 0, 0, 0], master_offset := 0 }
        { offset := 0, size := 4, instanceFlag := false } [104, 105] =
      .ok ({ data := [104, 105, 0, 0], master_offset := 0 },
           { offset := 0, size := 4, instanceFlag := false }) := by
  exact ⟨by decide, rfl⟩

/-- C8 amended: a fixed byte-range set with a value of different length
fails with the length assertion, and a fixed-shape array set with an
array-typed value of different shape fails with the shape assertion
(a plain one-dimensional sequence fails numpy broadcasting unless it has
matching length or length one); a fixed-length string set, however, never
raises a mismatch error — with the field range in bounds it succeeds,
truncating or null-padding the encoded bytes to the declared length. -/
theorem c8_mismatch_amended :
    (∀ (s : ByteStruct) (f : BAField) (v : List Nat),
      f.instanceFlag = false → v.length ≠ f.size →
      byteArraySet s f v = .error .mismatch)
    ∧ (∀ (s : ByteStruct) (f : ArrField) (sg : Bool) (o : ByteOrder)
        (sh : List Nat) (es : List Int),
      sh ≠ f.shape → bfArraySet s f sg o (.nd sh es) = .error .mismatch)
    ∧ (∀ (s : ByteStruct) (f : ArrField) (sg : Bool) (o : ByteOrder)
        (es : List Int) (n : Nat),
      f.instanceFlag = false → f.shape = [n] → es.length ≠ n → es.length ≠ 1 →
      bfArraySet s f sg o (.seq es) = .error .broadcastMismatch)
    ∧ (∀ (s : ByteStruct) (f : StrField) (v : List Nat),
      stringSet s f v ≠ .error .mismatch)
    ∧ (∀ (s : ByteStruct) (f : StrField) (v : List Nat),
      f.instanceFlag = false → calcOffset s f.offset + f.size ≤ s.data.length →
      ∃ s2, stringSet s f v = .ok (s2, f) ∧ s2.data.length = s.data.length) := by
  refine ⟨?_, ?_, ?_, ?_, ?_⟩
  · intro s f v hf h
    simp [byteArraySet, hf, h]
  · intro s f sg o sh es h
    simp [bfArraySet, h]
  · intro s f sg o es n hf hsh h1 h2
    simp [bfArraySet, valueShape, valueElems, hf, hsh, broadcastTo, h1, h2]
  · intro s f v h
    simp only [stringSet] at h
    split at h
    · split at h
      · simp at h
      · simp at h
    · split at h
      · simp at h
      · simp at h
  · intro s f v hf hin
    have hcond : ¬ (f.instanceFlag = true ∧ v.length ≠ f.size) := by simp [hf]
    have hb : ¬ (calcOffset s f.offset + f.size > s.data.length) := by omega
    refine ⟨⟨writeAt s.data (calcOffset s f.offset) (packPaddedBytes f.size (utf8Encode v)), s.master_offset⟩, ?_, ?_⟩
    · simp [stringSet, hcond, hb]
    · show (writeAt s.data (calcOffset s f.offset) (packPaddedBytes f.size (utf8Encode v))).length = s.data.length
      rw [writeAt_length]
      rw [packPaddedBytes_length]
      omega

/-- C8 witness: the amended theorem applied to a fixed 3-byte byte-range
field assigned two bytes (assertion error) and to a fixed 2-byte string
field over an in-bounds buffer (no mismatch error, write succeeds). -/
theorem c8_mismatch_witness :
    byteArraySet { data := [0, 0, 0], master_offset := 0 }
      { offset := 0, size := 3, instanceFlag := false } [1, 2] = .error .mismatch
    ∧ ∃ s2, stringSet { data := [0, 0], master_offset := 0 }
        { offset := 0, size := 2, instanceFlag := false } [104] = .ok (s2,
          { offset := 0, size := 2, instanceFlag := false })
        ∧ s2.data.length = ([0, 0] : List Nat).length := by
  constructor
  · exact c8_mismatch_amended.1 { data := [0, 0, 0], master_offset := 0 }
      { offset := 0, size := 3, instanceFlag := false } [1, 2] rfl (by decide)
  · exact c8_mismatch_amended.2.2.2.2 { data := [0, 0], master_offset := 0 }
      { offset := 0, size := 2, instanceFlag := false } [104] rfl (by decide)

/-! ## Claim C1 -/

/-- Round-trip of one integer field write/read at a fixed layout. -/
theorem integerSet_get (s : ByteStruct) (f : IntField) (v : Int)
    (hw : 1 ≤ f.width)
    (hin : calcOffset s f.offset + f.width ≤ s.data.length)
    (hr : representable f.width f.signed v) :
    ∃ s2, integerSet s f v = .ok s2 ∧ integerGet s2 f = .ok v := by
  obtain ⟨bs, hpack, hblen, hunpack⟩ := packInt_unpackInt f.width f.signed f.order v hw hr
  have hb : ¬ (calcOffset s f.offset + f.width > s.data.length) := by omega
  refine ⟨⟨writeAt s.data (calcOffset s f.offset) bs, s.master_offset⟩, ?_, ?_⟩
  · simp [integerSet, hb, hpack]
  · unfold integerGet calcOffset
    dsimp only
    dsimp only [calcOffset] at hin
    have hlen2 : (writeAt s.data (s.master_offset + f.offset) bs).length = s.data.length :=
      writeAt_length _ _ _ (by rw [hblen]; omega)
    rw [if_neg (by omega)]
    have hex := writeAt_extract s.data (s.master_offset + f.offset) bs (by rw [hblen]; omega)
    rw [hblen] at hex
    rw [hex, hunpack]

/-- Round-trip of one boolean field write/read at a fixed layout. -/
theorem booleanSet_get (s : ByteStruct) (f : IntField) (b : Bool)
    (hsg : f.signed = false) (hw : 1 ≤ f.width)
    (hin : calcOffset s f.offset + f.width ≤ s.data.length) :
    ∃ s2, booleanSet s f b = .ok s2 ∧ booleanGet s2 f = .ok b := by
  have h2 : (2 : Int) ≤ 2 ^ (8 * f.width) := by
    calc (2 : Int) = 2 ^ 1 := by norm_num
    _ ≤ 2 ^ (8 * f.width) := pow_le_pow_right₀ (by norm_num) (by omega)
  have hr : representable f.width f.signed (if b then 1 else 0) := by
    rw [hsg]
    simp only [representable, Bool.false_eq_true, if_false]
    cases b <;> constructor <;> simp <;> omega
  obtain ⟨s2, hset, hget⟩ := integerSet_get s f (if b then 1 else 0) hw hin hr
  refine ⟨s2, hset, ?_⟩
  unfold booleanGet
  rw [hget]
  cases b <;> simp


/-- Round-trip of one float/double field write/read at a fixed layout, at
the codec interface (IEEE bit patterns). -/
theorem floatSet_get (s : ByteStruct) (f : FltField) (bits : Nat)
    (hin : calcOffset s f.offset + f.width ≤ s.data.length)
    (hr : bits < 2 ^ (8 * f.width)) :
    ∃ s2, floatSet s f bits = .ok s2 ∧ floatGet s2 f = .ok bits := by
  have hb : ¬ (calcOffset s f.offset + f.width > s.data.length) := by omega
  have hblen : (packFloatBits f.width f.order bits).length = f.width :=
    packIntBytes_length _ _ _
  refine ⟨⟨writeAt s.data (calcOffset s f.offset) (packFloatBits f.width f.order bits),
    s.master_offset⟩, ?_, ?_⟩
  · simp [floatSet, hb]
  · unfold floatGet calcOffset
    dsimp only
    dsimp only [calcOffset] at hin
    have hlen2 : (writeAt s.data (s.master_offset + f.offset)
        (packFloatBits f.width f.order bits)).length = s.data.length :=
      writeAt_length _ _ _ (by rw [hblen]; omega)
    rw [if_neg (by omega)]
    have hex := writeAt_extract s.data (s.master_offset + f.offset)
      (packFloatBits f.width f.order bits) (by rw [hblen]; omega)
    rw [hblen] at hex
    rw [hex]
    have hm : bits % 256 ^ f.width = bits := by
      rw [Nat.mod_eq_of_lt]
      rw [← two_pow_eq]
      exact hr
    have hcalc : unpackFloatBits f.order (packFloatBits f.width f.order bits) = bits := by
      cases f.order <;>
        simp [unpackFloatBits, packFloatBits, packIntBytes, leToNat_natToLE, hm]
    rw [hcalc]

/-- Round-trip of one string field write/read when no resize fires and the
declared size is the encoded byte length of the value (so the `Ns` pack
neither truncates nor pads). -/
theorem stringSet_get_exact (s : ByteStruct) (f : StrField) (v : List Nat)
    (hv : ∀ c ∈ v, validScalar c)
    (hnr : ¬ (f.instanceFlag = true ∧ v.length ≠ f.size))
    (hsz : f.size = (utf8Encode v).length)
    (hin : calcOffset s f.offset + f.size ≤ s.data.length) :
    stringSet s f v =
      .ok (⟨writeAt s.data (calcOffset s f.offset) (utf8Encode v), s.master_offset⟩, f)
    ∧ stringGet ⟨writeAt s.data (calcOffset s f.offset) (utf8Encode v), s.master_offset⟩ f =
        .ok v := by
  have hpack : packPaddedBytes f.size (utf8Encode v) = utf8Encode v := by
    rw [hsz]
    simp [packPaddedBytes]
  have hb : ¬ (calcOffset s f.offset + f.size > s.data.length) := by omega
  constructor
  · simp [stringSet, hnr, hb, hpack]
  · unfold stringGet calcOffset
    dsimp only
    dsimp only [calcOffset] at hin
    have hlen2 : (writeAt s.data (s.master_offset + f.offset) (utf8Encode v)).length =
        s.data.length :=
      writeAt_length _ _ _ (by omega)
    rw [if_neg (by omega)]
    have hex := writeAt_extract s.data (s.master_offset + f.offset) (utf8Encode v) (by omega)
    rw [← hsz] at hex
    rw [hex, utf8Decode_utf8Encode v hv]

/-- Round-trip of one string field write/read when no resize fires and the
declared size is the value's length (ASCII: one byte per code point). -/
theorem stringSet_get_ascii (s : ByteStruct) (f : StrField) (v : List Nat)
    (hascii : ∀ c ∈ v, c < 0x80)
    (hnr : ¬ (f.instanceFlag = true ∧ v.length ≠ f.size))
    (hsz : f.size = v.length)
    (hin : calcOffset s f.offset + f.size ≤ s.data.length) :
    stringSet s f v = .ok (⟨writeAt s.data (calcOffset s f.offset) v, s.master_offset⟩, f)
    ∧ stringGet ⟨writeAt s.data (calcOffset s f.offset) v, s.master_offset⟩ f = .ok v := by
  have hpack : packPaddedBytes f.size (utf8Encode v) = v := by
    rw [utf8Encode_ascii v hascii, hsz]
    simp [packPaddedBytes]
  have hb : ¬ (calcOffset s f.offset + f.size > s.data.length) := by omega
  constructor
  · simp [stringSet, hnr, hb, hpack]
  · unfold stringGet calcOffset
    dsimp only
    dsimp only [calcOffset] at hin
    have hlen2 : (writeAt s.data (s.master_offset + f.offset) v).length = s.data.length :=
      writeAt_length _ _ _ (by omega)
    rw [if_neg (by omega)]
    have hex := writeAt_extract s.data (s.master_offset + f.offset) v (by omega)
    rw [← hsz] at hex
    rw [hex, utf8Decode_ascii v hascii]

/-- A variable-length string write whose length differs from the current
size first resizes; afterwards the write behaves like a write to the
already-resized field. -/
theorem stringSet_resize_step (s : ByteStruct) (f : StrField) (v : List Nat)
    (hc : f.instanceFlag = true ∧ v.length ≠ f.size) :
    stringSet s f v =
      stringSet (resizeData s f.offset f.size v.length) (stringResize f v.length) v := by
  simp only [stringSet, stringResize]
  rw [if_pos hc, if_pos hc]
  simp

/-- C1 amended: get after set returns the written value for every scalar
field — integer fields at every constructible width and representable
value, and float/double fields at every bit pattern representable in the
field width (the floating-point codec taken at its interface, spec 1) —
for every boolean field, and for every string field whose encoded byte
length equals the declared size (for fixed-length fields; character count
may differ from the byte length). A variable-length string set always
records the field's instance size as the assigned string's character
count `k` before encoding — so its round-trip holds exactly when each
character encodes to one byte; when the encoded byte length differs from
`k` the encoded bytes are truncated to `k` bytes and the subsequent get
does not return the written value (see the counterexample). -/
theorem c1_roundtrip_amended :
    (∀ (s : ByteStruct) (f : IntField) (v : Int),
      (f.width = 1 ∨ f.width = 2 ∨ f.width = 4 ∨ f.width = 8) →
      calcOffset s f.offset + f.width ≤ s.data.length →
      representable f.width f.signed v →
      ∃ s2, integerSet s f v = .ok s2 ∧ integerGet s2 f = .ok v)
    ∧ (∀ (s : ByteStruct) (f : FltField) (bits : Nat),
      (f.width = 4 ∨ f.width = 8) →
      calcOffset s f.offset + f.width ≤ s.data.length →
      bits < 2 ^ (8 * f.width) →
      ∃ s2, floatSet s f bits = .ok s2 ∧ floatGet s2 f = .ok bits)
    ∧ (∀ (s : ByteStruct) (f : IntField) (b : Bool),
      f.signed = false →
      (f.width = 1 ∨ f.width = 2 ∨ f.width = 4 ∨ f.width = 8) →
      calcOffset s f.offset + f.width ≤ s.data.length →
      ∃ s2, booleanSet s f b = .ok s2 ∧ booleanGet s2 f = .ok b)
    ∧ (∀ (s : ByteStruct) (f : StrField) (v : List Nat),
      f.instanceFlag = false →
      f.size = (utf8Encode v).length →
      (∀ c ∈ v, validScalar c) →
      calcOffset s f.offset + f.size ≤ s.data.length →
      ∃ s2, stringSet s f v = .ok (s2, f) ∧ stringGet s2 f = .ok v)
    ∧ (∀ (s : ByteStruct) (f : StrField) (v : List Nat),
      f.instanceFlag = true →
      (∀ c ∈ v, c < 0x80) →
      calcOffset s f.offset + f.size ≤ s.data.length →
      ∃ s2 f2, stringSet s f v = .ok (s2, f2) ∧ f2.size = v.length
        ∧ stringGet s2 f2 = .ok v) := by
  refine ⟨?_, ?_, ?_, ?_, ?_⟩
  · intro s f v hw hin hr
    exact integerSet_get s f v (by omega) hin hr
  · intro s f bits hw hin hr
    exact floatSet_get s f bits hin hr
  · intro s f b hsg hw hin
    exact booleanSet_get s f b hsg (by omega) hin
  · intro s f v hf hsz hv hin
    have hnr : ¬ (f.instanceFlag = true ∧ v.length ≠ f.size) := by simp [hf]
    obtain ⟨hset, hget⟩ := stringSet_get_exact s f v hv hnr hsz hin
    exact ⟨_, hset, hget⟩
  · intro s f v hf hascii hin
    by_cases hcase : v.length = f.size
    · have hnr : ¬ (f.instanceFlag = true ∧ v.length ≠ f.size) := by simp [hcase]
      obtain ⟨hset, hget⟩ := stringSet_get_ascii s f v hascii hnr hcase.symm hin
      exact ⟨_, f, hset, hcase.symm, hget⟩
    · have hc : f.instanceFlag = true ∧ v.length ≠ f.size := ⟨hf, hcase⟩
      rw [stringSet_resize_step s f v hc]
      have hl := resizeData_length s f.offset f.size v.length hin
      have hin1 : calcOffset (resizeData s f.offset f.size v.length)
          (stringResize f v.length).offset + (stringResize f v.length).size ≤
          (resizeData s f.offset f.size v.length).data.length := by
        rw [calcOffset_resizeData]
        show calcOffset s f.offset + v.length ≤ _
        omega
      have hnr : ¬ ((stringResize f v.length).instanceFlag = true ∧
          v.length ≠ (stringResize f v.length).size) := by simp [stringResize]
      obtain ⟨hset, hget⟩ := stringSet_get_ascii (resizeData s f.offset f.size v.length)
        (stringResize f v.length) v hascii hnr rfl hin1
      exact ⟨_, stringResize f v.length, hset, rfl, hget⟩

/-- C1 counterexample: on a variable-length string field, assigning the
one-character string "é" (code point 0xE9, two utf-8 bytes) records
instance size 1 — the character count — but packs only the first encoded
byte, and the subsequent get fails to decode instead of returning the
assigned value. -/
theorem c1_nonascii_roundtrip_fails :
    ([233] : List Nat).length = 1
    ∧ stringSet { data := [], master_offset := 0 }
        { offset := 0, size := 0, instanceFlag := true } [233] =
      .ok ({ data := [195], master_offset := 0 },
           { offset := 0, size := 1, instanceFlag := true })
    ∧ stringGet { data := [195], master_offset := 0 }
        { offset := 0, size := 1, instanceFlag := true } = .error .decodeError := by
  exact ⟨rfl, rfl, rfl⟩

/-- C1 witness: the amended round-trip applied to a signed 4-byte little
endian integer (-5), a big endian 4-byte float bit pattern, a big endian
2-byte boolean, a fixed 4-byte string holding the two-character
"éé" (whose encoded byte length, 4, equals the declared size while its
character count does not), and a variable-length ASCII string on a fresh
buffer. -/
theorem c1_roundtrip_witness :
    (∃ s2, integerSet { data := [0, 0, 0, 0], master_offset := 0 }
        { offset := 0, width := 4, signed := true, order := .little } (-5) = .ok s2
      ∧ integerGet s2 { offset := 0, width := 4, signed := true, order := .little } =
          .ok (-5))
    ∧ (∃ s2, floatSet { data := [0, 0, 0, 0], master_offset := 0 }
        { offset := 0, width := 4, order := .big } 1093874483 = .ok s2
      ∧ floatGet s2 { offset := 0, width := 4, order := .big } = .ok 1093874483)
    ∧ (∃ s2, booleanSet { data := [0, 0], master_offset := 0 }
        { offset := 0, width := 2, signed := false, order := .big } true = .ok s2
      ∧ booleanGet s2 { offset := 0, width := 2, signed := false, order := .big } = .ok true)
    ∧ (∃ s2, stringSet { data := [0, 0, 0, 0], master_offset := 0 }
        { offset := 0, size := 4, instanceFlag := false } [233, 233] =
          .ok (s2, { offset := 0, size := 4, instanceFlag := false })
      ∧ stringGet s2 { offset := 0, size := 4, instanceFlag := false } = .ok [233, 233])
    ∧ (∃ s2 f2, stringSet { data := [], master_offset := 0 }
        { offset := 0, size := 0, instanceFlag := true } [104, 105] = .ok (s2, f2)
      ∧ f2.size = ([104, 105] : List Nat).length
      ∧ stringGet s2 f2 = .ok [104, 105]) := by
  refine ⟨?_, ?_, ?_, ?_, ?_⟩
  · exact c1_roundtrip_amended.1 { data := [0, 0, 0, 0], master_offset := 0 }
      { offset := 0, width := 4, signed := true, order := .little } (-5)
      (by decide) (by decide) (by decide)
  · exact c1_roundtrip_amended.2.1 { data := [0, 0, 0, 0], master_offset := 0 }
      { offset := 0, width := 4, order := .big } 1093874483
      (by decide) (by decide) (by decide)
  · exact c1_roundtrip_amended.2.2.1 { data := [0, 0], master_offset := 0 }
      { offset := 0, width := 2, signed := false, order := .big } true
      rfl (by decide) (by decide)
  · exact c1_roundtrip_amended.2.2.2.1 { data := [0, 0, 0, 0], master_offset := 0 }
      { offset := 0, size := 4, instanceFlag := false } [233, 233]
      rfl (by decide) (by decide) (by decide)
  · exact c1_roundtrip_amended.2.2.2.2 { data := [], master_offset := 0 }
      { offset := 0, size := 0, instanceFlag := true } [104, 105]
      rfl (by decide) (by decide)
